import Mathlib

/-!
Shallow embedding of the Nex runtime (src/Nex/Nex-runtime.py).

Python strings are modelled as lists of characters (`Str`).  Python's
line-and-token string operations are modelled as follows:

* `str.strip()` / `str.strip('"')` : drop characters satisfying a predicate
  from both ends (`pyStripP`);
* `str.splitlines()` : split at newline characters (modelled for the
  line-break characters LF and CR; a CRLF pair yields one extra empty
  piece, which the parser filters out anyway);
* `str.split()` (no argument) : split at whitespace runs and drop the empty
  pieces (`pySplitWs`);
* `needle in hay` : substring containment (`containsTok`);
* `str.startswith(t)` : `List.isPrefixOf`;
* `str.lower()` : character-wise ASCII lowercasing (`pyLower`).

Python floats are modelled as rationals.  Mutation of the object list in
place is modelled by explicit state passing (each update returns the new
list); exceptions are modelled with `Except`: `Parser.parse` can in
principle raise the module's own `SyntaxError` class or an `IndexError`
from `line.split()[1]`, so it returns `Except PyErr SceneGraph`, and the
development proves that the `IndexError` branch is unreachable.
-/

abbrev Str := List Char

/-- `Char.isWhitespace`, the predicate used by `strip()`/`split()`. -/
def isWs (c : Char) : Bool := c.isWhitespace

/-- Drop characters satisfying `p` from both ends (Python `strip`). -/
def pyStripP (p : Char → Bool) (s : Str) : Str :=
  ((s.dropWhile p).reverse.dropWhile p).reverse

/-- Python `line.strip()`. -/
def pyStrip (s : Str) : Str := pyStripP isWs s

/-- Python `token.strip('"')` (line 42 of the source). -/
def stripQuotes (s : Str) : Str := pyStripP (fun c => c == '"') s

/-- Python `code_text.splitlines()`: split at LF/CR boundaries. -/
def splitlines : Str → List Str
  | [] => [[]]
  | c :: rest =>
    if c == '\n' || c == '\r' then [] :: splitlines rest
    else
      match splitlines rest with
      | [] => [[c]]
      | l :: ls => (c :: l) :: ls

/-- Python `line.split()` with no separator: maximal non-whitespace runs. -/
def pySplitWs (s : Str) : List Str :=
  (List.splitOnP isWs s).filter (fun t => !t.isEmpty)

/-- Line 36 of the source:
`[line.strip() for line in code_text.splitlines() if line.strip()]`. -/
def pyLines (code_text : Str) : List Str :=
  ((splitlines code_text).map pyStrip).filter (fun l => !l.isEmpty)

/-- Python `needle in hay` (substring containment). -/
def containsTok (needle : Str) : Str → Bool
  | [] => needle.isEmpty
  | c :: rest => needle.isPrefixOf (c :: rest) || containsTok needle rest

/-- Python `name.lower()` (ASCII letters). -/
def pyLower (s : Str) : Str := s.map Char.toLower

/-- A three-component float vector; the Python code stores positions and
rotations as three-element lists `[x, y, z]`. -/
structure Vec3 where
  x : ℚ
  y : ℚ
  z : ℚ
  deriving DecidableEq, Repr

/-- One entry of `ast["objects"]` (line 40 of the source). -/
structure SceneObject where
  name : Str
  position : Vec3
  rotation : Vec3
  scale : ℚ
  deriving DecidableEq, Repr

/-- The IR dictionary built by `Parser.parse` (line 35 of the source):
`{"objects": [], "ui": [], "physics": {}, "audio": {}, "assets": []}`.
`ui`, `physics` and `audio` are never written by the parser. -/
structure SceneGraph where
  objects : List SceneObject
  ui : List Unit
  physics : List (Str × Str)
  audio : List (Str × Str)
  assets : List Str
  deriving DecidableEq, Repr

/-- The exceptions `Parser.parse` can raise: the module's own
`SyntaxError` class (line 27), and Python's `IndexError` from
`line.split()[1]` when a line has fewer than two tokens. -/
inductive PyErr where
  | SyntaxError
  | IndexError
  deriving DecidableEq, Repr

def gameTok : Str := "game".toList

def objectTok : Str := "object ".toList

def importTok : Str := "import ".toList

def enemyTok : Str := "enemy".toList

/-- The fresh IR of line 35. -/
def freshGraph : SceneGraph :=
  { objects := [], ui := [], physics := [], audio := [], assets := [] }

/-- The `SceneObject` appended for an `object <Name>` line (line 40):
`{"name": name, "position": [0,0,0], "rotation": [0,0,0], "scale": 1}`. -/
def mkObject (name : Str) : SceneObject :=
  { name := name, position := ⟨0, 0, 0⟩, rotation := ⟨0, 0, 0⟩, scale := 1 }

/-- `line.split()[1]`, total variant used in specifications: defaults to
the empty string when the token does not exist. -/
def tok1D (l : Str) : Str := ((pySplitWs l)[1]?).getD []

/-- The `if line.startswith("object ")` branch (lines 38-40). -/
def objStep (ast : SceneGraph) (line : Str) : Except PyErr SceneGraph :=
  if objectTok.isPrefixOf line then
    match (pySplitWs line)[1]? with
    | some name => .ok { ast with objects := ast.objects ++ [mkObject name] }
    | none => .error .IndexError
  else .ok ast

/-- The `if line.startswith("import ")` branch (lines 41-43). -/
def importStep (ast : SceneGraph) (line : Str) : Except PyErr SceneGraph :=
  if importTok.isPrefixOf line then
    match (pySplitWs line)[1]? with
    | some tk => .ok { ast with assets := ast.assets ++ [stripQuotes tk] }
    | none => .error .IndexError
  else .ok ast

/-- One iteration of the `for line in lines` loop (lines 37-43): the two
`if` statements are independent (not `elif`). -/
def processLine (ast : SceneGraph) (line : Str) : Except PyErr SceneGraph :=
  match objStep ast line with
  | .ok a => importStep a line
  | .error e => .error e

/-- The whole `for line in lines` loop. -/
def parseLines : SceneGraph → List Str → Except PyErr SceneGraph
  | ast, [] => .ok ast
  | ast, l :: ls =>
    match processLine ast l with
    | .ok a => parseLines a ls
    | .error e => .error e

/-- `Parser.parse` (lines 32-44): raise `SyntaxError` when `"game"` is not
a substring of the text, otherwise scan the stripped non-empty lines. -/
def Parser.parse (code_text : Str) : Except PyErr SceneGraph :=
  if containsTok gameTok code_text then parseLines freshGraph (pyLines code_text)
  else .error .SyntaxError

/-- `Physics.update` (lines 104-110): for every object,
`y -= 9.8 * delta_time; obj["position"][1] = max(y, 0)`.  In-place
mutation of the list is modelled by returning the updated list. -/
def Physics.update (objects : List SceneObject) (delta_time : ℚ) : List SceneObject :=
  objects.map (fun obj =>
    { obj with position :=
        { obj.position with y := max (obj.position.y - 9.8 * delta_time) 0 } })

/-- `AI.update` (lines 124-129): objects whose lowercased name is
`"enemy"` get `obj["position"][0] -= 1.0 * delta_time`. -/
def AI.update (objects : List SceneObject) (delta_time : ℚ) : List SceneObject :=
  objects.map (fun obj =>
    if pyLower obj.name = enemyTok then
      { obj with position :=
          { obj.position with x := obj.position.x - 1 * delta_time } }
    else obj)

/-- Placeholder for the `pyglet.shapes.Box` handle stored per asset. -/
inductive Handle where
  | box
  deriving DecidableEq, Repr

/-- Python dict assignment `d[k] = v`: overwrite in place if the key is
present, else append. -/
def dictInsert (st : List (Str × Handle)) (k : Str) (v : Handle) : List (Str × Handle) :=
  if st.any (fun p => p.1 == k) then
    st.map (fun p => if p.1 == k then (k, v) else p)
  else st ++ [(k, v)]

/-- `AssetManager.load_assets` (lines 52-56): store a placeholder box
under each asset name.  The class-level dict `AssetManager.assets` is the
explicit `store` argument. -/
def AssetManager.load_assets (store : List (Str × Handle)) (asset_list : List Str) :
    List (Str × Handle) :=
  asset_list.foldl (fun st a => dictInsert st a Handle.box) store

/-- The state observable after `NexRuntime.load_code`: the returned
boolean, the runtime's `self.game_ir`, and `AssetManager.assets`. -/
structure LoadResult where
  ret : Bool
  game_ir : Option SceneGraph
  store : List (Str × Handle)
  deriving DecidableEq, Repr

/-- `NexRuntime.load_code` (lines 180-188): assign `self.game_ir` from
`Parser.parse`, load the assets, return `True`; only the module's
`SyntaxError` is caught (returning `False` with state untouched) — any
other exception would propagate. -/
def NexRuntime.load_code (game_ir : Option SceneGraph) (store : List (Str × Handle))
    (code_text : Str) : Except PyErr LoadResult :=
  match Parser.parse code_text with
  | .ok g => .ok { ret := true, game_ir := some g, store := AssetManager.load_assets store g.assets }
  | .error .SyntaxError => .ok { ret := false, game_ir := game_ir, store := store }
  | .error e => .error e

/-- The spec scenario source written on a single line. -/
def srcOneLine : Str :=
  ("game Demo \x7b object Player \x7b\x7d object Enemy \x7b\x7d import \"x.obj\" \x7d").toList

/-- The spec scenario source with one statement per line. -/
def srcDemo : Str :=
  ("game Demo \x7b\nobject Player \x7b\x7d\nobject Enemy \x7b\x7d\nimport \"x.obj\"\n\x7d").toList

/-- A two-import source for the asset-extraction example. -/
def srcAB : Str :=
  ("game A \x7b\nimport \"a.obj\"\nimport \"b.obj\"\n\x7d").toList

/-- The IR of `srcDemo`. -/
def gDemo : SceneGraph :=
  { objects := [mkObject ("Player".toList), mkObject ("Enemy".toList)],
    ui := [], physics := [], audio := [], assets := [("x.obj".toList)] }

/-- The IR of `srcAB`. -/
def gAB : SceneGraph :=
  { objects := [], ui := [], physics := [], audio := [],
    assets := [("a.obj".toList), ("b.obj".toList)] }

/-- A line has no trailing whitespace (what `strip()` guarantees). -/
def noTrailWs (l : Str) : Prop := ∀ c, l.getLast? = some c → isWs c = false

/-- Sample object named `Enemy`, as the parser would create it. -/
def eObj : SceneObject := mkObject ("Enemy".toList)

/-- Sample object named `ENEMY`. -/
def e2Obj : SceneObject := mkObject ("ENEMY".toList)

/-- Sample object named `Player`. -/
def pObj : SceneObject := mkObject ("Player".toList)

/-! ### Helper lemmas about the string model -/

theorem headDropWhile {α : Type} {p : α → Bool} {c : α} :
    ∀ l : List α, (l.dropWhile p).head? = some c → p c = false := by
  intro l
  induction l with
  | nil => intro h; simp [List.dropWhile] at h
  | cons a t ih =>
    intro h
    rw [List.dropWhile_cons] at h
    by_cases hp : p a
    · rw [if_pos hp] at h; exact ih h
    · rw [if_neg hp] at h
      simp only [List.head?_cons, Option.some.injEq] at h
      subst h
      simpa using hp

theorem noTrailWs_pyStrip (m : Str) : noTrailWs (pyStrip m) := by
  intro c h
  unfold pyStrip pyStripP at h
  rw [List.getLast?_reverse] at h
  exact headDropWhile _ h

theorem pyLines_mem {s l : Str} (h : l ∈ pyLines s) : l ≠ [] ∧ noTrailWs l := by
  unfold pyLines at h
  obtain ⟨hm, hne⟩ := List.mem_filter.mp h
  obtain ⟨m, _, rfl⟩ := List.mem_map.mp hm
  refine ⟨?_, noTrailWs_pyStrip m⟩
  simpa [List.isEmpty_iff] using hne

theorem isPrefixOfE {l₁ l₂ : Str} (h : l₁.isPrefixOf l₂ = true) :
    ∃ t, l₁ ++ t = l₂ :=
  List.isPrefixOf_iff_prefix.mp h

theorem splitOnP_word {w r : Str} (hw : ∀ c ∈ w, isWs c = false) :
    List.splitOnP isWs (w ++ ' ' :: r) = w :: List.splitOnP isWs r := by
  induction w with
  | nil =>
    rw [List.nil_append, List.splitOnP_cons, if_pos (by decide)]
  | cons a t ih =>
    have ha : isWs a = false := hw a (List.mem_cons_self a t)
    rw [List.cons_append, List.splitOnP_cons, ha]
    simp only [Bool.false_eq_true, if_false]
    rw [ih (fun c hc => hw c (List.mem_cons_of_mem a hc)), List.modifyHead_cons]

theorem pySplit_ne_nil {r : Str} {c : Char} (hc : c ∈ r) (hw : isWs c = false) :
    pySplitWs r ≠ [] := by
  induction r with
  | nil => cases hc
  | cons a t ih =>
    unfold pySplitWs
    rw [List.splitOnP_cons]
    by_cases ha : isWs a
    · rw [if_pos ha]
      rw [List.filter_cons]
      simp only [List.isEmpty_nil, Bool.not_true, Bool.false_eq_true, if_false]
      have hct : c ∈ t := by
        rcases List.mem_cons.mp hc with rfl | h
        · rw [ha] at hw; cases hw
        · exact h
      exact ih hct
    · rw [if_neg ha]
      cases hsp : List.splitOnP isWs t with
      | nil => exact absurd hsp (List.splitOnP_ne_nil _ t)
      | cons h0 rest =>
        rw [List.modifyHead_cons, List.filter_cons]
        simp

theorem tok1_of_startsWith {tok l r : Str} (htok : tok ≠ [])
    (hw : ∀ c ∈ tok, isWs c = false) (hnt : noTrailWs l)
    (hr : (tok ++ [' ']) ++ r = l) :
    ∃ t, (pySplitWs l)[1]? = some t := by
  have hl : l = tok ++ ' ' :: r := by rw [← hr]; simp
  have hrne : r ≠ [] := by
    intro h0
    subst h0
    have hlast : l.getLast? = some ' ' := by
      rw [hl]; exact List.getLast?_concat tok
    have := hnt ' ' hlast
    simp [isWs] at this
  obtain ⟨c, hlast⟩ : ∃ c, r.getLast? = some c := by
    cases hq : r.getLast? with
    | none => exact absurd (List.getLast?_eq_none_iff.mp hq) hrne
    | some c => exact ⟨c, rfl⟩
  have hlast_l : l.getLast? = some c := by
    rw [← hr, List.getLast?_append, hlast]; rfl
  have hcw : isWs c = false := hnt c hlast_l
  have hcmem : c ∈ r := List.mem_of_mem_getLast? hlast
  have hsplit : pySplitWs l = tok :: pySplitWs r := by
    unfold pySplitWs
    rw [hl, splitOnP_word hw, List.filter_cons, if_pos (by simpa [List.isEmpty_iff] using htok)]
  cases hq : pySplitWs r with
  | nil => exact absurd hq (pySplit_ne_nil hcmem hcw)
  | cons t ts => exact ⟨t, by rw [hsplit, hq]; simp⟩

theorem objStep_ok (ast : SceneGraph) {l : Str} (hnt : noTrailWs l) :
    ∃ a, objStep ast l = .ok a := by
  unfold objStep
  by_cases hp : objectTok.isPrefixOf l = true
  · obtain ⟨r, hr⟩ := isPrefixOfE hp
    have heq : objectTok = ("object".toList) ++ [' '] := by decide
    have hr2 : (("object".toList) ++ [' ']) ++ r = l := by rw [← heq]; exact hr
    obtain ⟨t, ht⟩ := tok1_of_startsWith (by decide) (by decide) hnt hr2
    rw [if_pos hp, ht]
    exact ⟨_, rfl⟩
  · rw [if_neg hp]
    exact ⟨ast, rfl⟩

theorem importStep_ok (ast : SceneGraph) {l : Str} (hnt : noTrailWs l) :
    ∃ a, importStep ast l = .ok a := by
  unfold importStep
  by_cases hp : importTok.isPrefixOf l = true
  · obtain ⟨r, hr⟩ := isPrefixOfE hp
    have heq : importTok = ("import".toList) ++ [' '] := by decide
    have hr2 : (("import".toList) ++ [' ']) ++ r = l := by rw [← heq]; exact hr
    obtain ⟨t, ht⟩ := tok1_of_startsWith (by decide) (by decide) hnt hr2
    rw [if_pos hp, ht]
    exact ⟨_, rfl⟩
  · rw [if_neg hp]
    exact ⟨ast, rfl⟩

theorem processLine_ok (ast : SceneGraph) {l : Str} (hnt : noTrailWs l) :
    ∃ a, processLine ast l = .ok a := by
  obtain ⟨b, hb⟩ := objStep_ok ast hnt
  obtain ⟨a, ha⟩ := importStep_ok b hnt
  exact ⟨a, by unfold processLine; rw [hb]; exact ha⟩

theorem parseLines_ok :
    ∀ ls : List Str, (∀ l ∈ ls, noTrailWs l) → ∀ ast, ∃ g, parseLines ast ls = .ok g := by
  intro ls
  induction ls with
  | nil => exact fun _ ast => ⟨ast, rfl⟩
  | cons l ls ih =>
    intro hall ast
    obtain ⟨a, ha⟩ := processLine_ok ast (hall l (List.mem_cons_self l ls))
    obtain ⟨g, hg⟩ := ih (fun x hx => hall x (List.mem_cons_of_mem l hx)) a
    exact ⟨g, by unfold parseLines; rw [ha]; exact hg⟩

theorem parse_cases (s : Str) :
    (containsTok gameTok s = true ∧ ∃ g, Parser.parse s = .ok g) ∨
    (containsTok gameTok s = false ∧ Parser.parse s = .error .SyntaxError) := by
  by_cases hc : containsTok gameTok s = true
  · refine Or.inl ⟨hc, ?_⟩
    obtain ⟨g, hg⟩ := parseLines_ok (pyLines s) (fun l hl => (pyLines_mem hl).2) freshGraph
    exact ⟨g, by unfold Parser.parse; rw [if_pos hc]; exact hg⟩
  · exact Or.inr ⟨by simpa using hc, by unfold Parser.parse; rw [if_neg hc]⟩

theorem objStep_fields {ast l a} (h : objStep ast l = .ok a) :
    a.objects = ast.objects ++
      (if objectTok.isPrefixOf l then [mkObject (tok1D l)] else []) ∧
    a.assets = ast.assets := by
  unfold objStep at h
  by_cases hp : objectTok.isPrefixOf l = true
  · rw [if_pos hp] at h
    cases ht : (pySplitWs l)[1]? with
    | none => rw [ht] at h; exact Except.noConfusion h
    | some nm =>
      rw [ht] at h
      injection h with h
      subst h
      simp [hp, tok1D, ht]
  · rw [if_neg hp] at h
    injection h with h
    subst h
    simp [hp]

theorem importStep_fields {ast l a} (h : importStep ast l = .ok a) :
    a.assets = ast.assets ++
      (if importTok.isPrefixOf l then [stripQuotes (tok1D l)] else []) ∧
    a.objects = ast.objects := by
  unfold importStep at h
  by_cases hp : importTok.isPrefixOf l = true
  · rw [if_pos hp] at h
    cases ht : (pySplitWs l)[1]? with
    | none => rw [ht] at h; exact Except.noConfusion h
    | some tk =>
      rw [ht] at h
      injection h with h
      subst h
      simp [hp, tok1D, ht]
  · rw [if_neg hp] at h
    injection h with h
    subst h
    simp [hp]

theorem processLine_fields {ast l a} (h : processLine ast l = .ok a) :
    a.objects = ast.objects ++
      (if objectTok.isPrefixOf l then [mkObject (tok1D l)] else []) ∧
    a.assets = ast.assets ++
      (if importTok.isPrefixOf l then [stripQuotes (tok1D l)] else []) := by
  unfold processLine at h
  cases hobj : objStep ast l with
  | error e => rw [hobj] at h; exact Except.noConfusion h
  | ok b =>
    rw [hobj] at h
    obtain ⟨ho, ha⟩ := objStep_fields hobj
    obtain ⟨ha2, ho2⟩ := importStep_fields h
    exact ⟨by rw [ho2, ho], by rw [ha2, ha]⟩

theorem parseLines_fields :
    ∀ (ls : List Str) (ast g : SceneGraph), parseLines ast ls = .ok g →
      g.objects = ast.objects ++
        ((ls.filter (fun l => objectTok.isPrefixOf l)).map (fun l => mkObject (tok1D l))) ∧
      g.assets = ast.assets ++
        ((ls.filter (fun l => importTok.isPrefixOf l)).map (fun l => stripQuotes (tok1D l))) := by
  intro ls
  induction ls with
  | nil =>
    intro ast g h
    unfold parseLines at h
    injection h with h
    subst h
    simp
  | cons l ls ih =>
    intro ast g h
    unfold parseLines at h
    cases hpl : processLine ast l with
    | error e => rw [hpl] at h; exact Except.noConfusion h
    | ok a =>
      rw [hpl] at h
      obtain ⟨h1, h2⟩ := ih a g h
      obtain ⟨h3, h4⟩ := processLine_fields hpl
      rw [List.filter_cons, List.filter_cons]
      constructor
      · rw [h1, h3, List.append_assoc]
        by_cases hb : objectTok.isPrefixOf l = true
        · simp [hb]
        · simp [hb]
      · rw [h2, h4, List.append_assoc]
        by_cases hb : importTok.isPrefixOf l = true
        · simp [hb]
        · simp [hb]

theorem parse_fields {s : Str} {g : SceneGraph} (h : Parser.parse s = .ok g) :
    g.objects = ((pyLines s).filter (fun l => objectTok.isPrefixOf l)).map
      (fun l => mkObject (tok1D l)) ∧
    g.assets = ((pyLines s).filter (fun l => importTok.isPrefixOf l)).map
      (fun l => stripQuotes (tok1D l)) := by
  unfold Parser.parse at h
  by_cases hc : containsTok gameTok s = true
  · rw [if_pos hc] at h
    simpa [freshGraph] using parseLines_fields (pyLines s) freshGraph g h
  · rw [if_neg hc] at h
    exact Except.noConfusion h

/-! ### Claim theorems -/

/-- Claim C1 (counterexample).  On the single-line scenario text, the code
returns an IR with NO objects and NO assets, because `object` / `import`
statements are recognised only as prefixes of a whole (stripped) line and
the only line of this text starts with `game`.  In particular no IR with
two objects and one asset is returned, which refutes the claim as
stated. -/
theorem c1_counterexample :
    Parser.parse srcOneLine = Except.ok freshGraph ∧
    ¬ ∃ g, Parser.parse srcOneLine = Except.ok g ∧
        g.objects.length = 2 ∧ g.assets.length = 1 := by
  have h1 : Parser.parse srcOneLine = Except.ok freshGraph := rfl
  refine ⟨h1, ?_⟩
  rintro ⟨g, hg, hlen, -⟩
  rw [h1] at hg
  injection hg with hg
  subst hg
  simp [freshGraph] at hlen

/-- Claim C1 (amended).  When each statement of the scenario is on its own
line, `parse` returns exactly the expected IR: objects
`Player` then `Enemy`, both with position `(0,0,0)`, rotation `(0,0,0)`,
scale `1`, and assets exactly `["x.obj"]`. -/
theorem c1_amended :
    Parser.parse srcDemo = Except.ok
      { objects :=
          [{ name := ("Player".toList), position := ⟨0, 0, 0⟩,
             rotation := ⟨0, 0, 0⟩, scale := 1 },
           { name := ("Enemy".toList), position := ⟨0, 0, 0⟩,
             rotation := ⟨0, 0, 0⟩, scale := 1 }],
        ui := [], physics := [], audio := [],
        assets := [("x.obj".toList)] } := rfl

/-- Claim C2.  `parse` raises `SyntaxError` exactly when the input does
not contain the substring `game`; on every input that does contain it,
`parse` returns a `SceneGraph` and raises nothing (in particular the
`IndexError` branch of `line.split()[1]` is unreachable). -/
theorem c2_parse_game_gate (s : Str) :
    (containsTok gameTok s = false → Parser.parse s = .error PyErr.SyntaxError) ∧
    (containsTok gameTok s = true → ∃ g, Parser.parse s = .ok g) := by
  rcases parse_cases s with ⟨hc, hg⟩ | ⟨hc, he⟩
  · exact ⟨fun h => (by rw [h] at hc; cases hc), fun _ => hg⟩
  · exact ⟨fun _ => he, fun h => (by rw [h] at hc; cases hc)⟩

/-- Claim C2, witness: the empty input raises `SyntaxError`; the input
`game` parses successfully. -/
theorem c2_witness :
    Parser.parse [] = Except.error PyErr.SyntaxError ∧
    ∃ g, Parser.parse ("game".toList) = Except.ok g :=
  ⟨(c2_parse_game_gate []).1 (by decide),
   (c2_parse_game_gate ("game".toList)).2 (by decide)⟩

/-- Claim C3.  One `Physics.update` with `delta_time = dt > 0` sends an
object with `position.y = Y0 ≥ 0` to `position.y = max (Y0 - 9.8*dt) 0`;
in particular an object resting at `y = 0` stays at `0`. -/
theorem c3_physics_floor_clamp (objs : List SceneObject) (dt : ℚ) (hdt : 0 < dt)
    (i : ℕ) (o : SceneObject) (h : objs[i]? = some o) (_hy : 0 ≤ o.position.y) :
    ∃ o', (Physics.update objs dt)[i]? = some o' ∧
      o'.position.y = max (o.position.y - 9.8 * dt) 0 ∧
      (o.position.y = 0 → o'.position.y = 0) := by
  refine ⟨{ o with position :=
      { o.position with y := max (o.position.y - 9.8 * dt) 0 } }, ?_, rfl, ?_⟩
  · unfold Physics.update
    rw [List.getElem?_map, h]
    rfl
  · intro h0
    have h98 : (0:ℚ) < 9.8 * dt := by
      have h9 : (0:ℚ) < 9.8 := by norm_num
      exact mul_pos h9 hdt
    show max (o.position.y - 9.8 * dt) 0 = 0
    rw [h0]
    apply max_eq_right
    linarith

/-- Claim C3, witness: a `Player` object starting at `y = 0`, with
`dt = 1`. -/
theorem c3_witness :
    ∃ o', (Physics.update [pObj] 1)[0]? = some o' ∧
      o'.position.y = max (pObj.position.y - 9.8 * 1) 0 ∧
      (pObj.position.y = 0 → o'.position.y = 0) :=
  c3_physics_floor_clamp [pObj] 1 (by norm_num) 0 pObj rfl (by decide)

/-- Claim C4.  After one `AI.update` with `delta_time = dt`, an object
whose name equals `enemy` case-insensitively has `position.x` decreased
by exactly `1.0 * dt`, and an object whose name does not is returned
unchanged. -/
theorem c4_ai_drift (objs : List SceneObject) (dt : ℚ) (i : ℕ) (o : SceneObject)
    (h : objs[i]? = some o) :
    (pyLower o.name = enemyTok →
      (AI.update objs dt)[i]? =
        some { o with position := { o.position with x := o.position.x - 1 * dt } }) ∧
    (pyLower o.name ≠ enemyTok → (AI.update objs dt)[i]? = some o) := by
  constructor <;> intro hn <;> simp [AI.update, List.getElem?_map, h, hn]

/-- Claim C4, witness: `Enemy` and `ENEMY` drift by `-1.0 * 1`, `Player`
is unchanged. -/
theorem c4_witness :
    (AI.update [eObj, e2Obj, pObj] 1)[0]? =
      some { eObj with position := { eObj.position with x := eObj.position.x - 1 * 1 } } ∧
    (AI.update [eObj, e2Obj, pObj] 1)[1]? =
      some { e2Obj with position := { e2Obj.position with x := e2Obj.position.x - 1 * 1 } } ∧
    (AI.update [eObj, e2Obj, pObj] 1)[2]? = some pObj :=
  ⟨(c4_ai_drift [eObj, e2Obj, pObj] 1 0 eObj rfl).1 (by decide),
   (c4_ai_drift [eObj, e2Obj, pObj] 1 1 e2Obj rfl).1 (by decide),
   (c4_ai_drift [eObj, e2Obj, pObj] 1 2 pObj rfl).2 (by decide)⟩

/-- Claim C5.  For every accepted source, the IR's object sequence is
exactly the sequence of (stripped, non-empty) lines starting with
`object `, in order, each mapped to an object whose name is the second
whitespace-delimited token of its line, with position `(0,0,0)`,
rotation `(0,0,0)`, scale `1`. -/
theorem c5_object_extraction (s : Str) (g : SceneGraph) (h : Parser.parse s = .ok g) :
    g.objects = ((pyLines s).filter (fun l => objectTok.isPrefixOf l)).map
      (fun l => { name := tok1D l, position := ⟨0, 0, 0⟩,
                  rotation := ⟨0, 0, 0⟩, scale := 1 }) := by
  simpa [mkObject] using (parse_fields h).1

/-- Claim C5, witness: the two-object demo source. -/
theorem c5_witness :
    gDemo.objects = ((pyLines srcDemo).filter (fun l => objectTok.isPrefixOf l)).map
      (fun l => { name := tok1D l, position := ⟨0, 0, 0⟩,
                  rotation := ⟨0, 0, 0⟩, scale := 1 }) :=
  c5_object_extraction srcDemo gDemo rfl

/-- Claim C6.  For every accepted source, the IR's asset sequence is
exactly the sequence of (stripped, non-empty) lines starting with
`import `, in order, each mapped to its second whitespace-delimited token
with surrounding double quotes stripped. -/
theorem c6_asset_extraction (s : Str) (g : SceneGraph) (h : Parser.parse s = .ok g) :
    g.assets = ((pyLines s).filter (fun l => importTok.isPrefixOf l)).map
      (fun l => stripQuotes (tok1D l)) :=
  (parse_fields h).2

/-- Claim C6, witness: `import "a.obj"` then `import "b.obj"` yield the
assets `["a.obj", "b.obj"]` (that is what `gAB.assets` is). -/
theorem c6_witness :
    gAB.assets = ((pyLines srcAB).filter (fun l => importTok.isPrefixOf l)).map
      (fun l => stripQuotes (tok1D l)) :=
  c6_asset_extraction srcAB gAB rfl

/-- Claim C7.  A line that merely contains `object` or `import` as a
substring, without starting with that token followed by a space,
contributes nothing: the loop body leaves the IR unchanged.  Statement
recognition is a prefix match on the stripped line, never a substring
search. -/
theorem c7_prefix_only (ast : SceneGraph) (l : Str)
    (_hsub : containsTok ("object".toList) l = true ∨
      containsTok ("import".toList) l = true)
    (h1 : objectTok.isPrefixOf l = false) (h2 : importTok.isPrefixOf l = false) :
    processLine ast l = .ok ast := by
  unfold processLine objStep importStep
  simp [h1, h2]

/-- Claim C7, witness: `my_object X` and `reimport "a"` contribute
nothing. -/
theorem c7_witness :
    processLine freshGraph ("my_object X".toList) = .ok freshGraph ∧
    processLine freshGraph ("reimport \"a\"".toList) = .ok freshGraph :=
  ⟨c7_prefix_only freshGraph ("my_object X".toList)
      (Or.inl (by decide)) (by decide) (by decide),
   c7_prefix_only freshGraph ("reimport \"a\"".toList)
      (Or.inr (by decide)) (by decide) (by decide)⟩

/-- Claim C8.  `load_code` always returns a boolean (the `Except` result
is always `ok`, never a propagating exception): `true` with the parsed IR
stored and the assets loaded when `parse` succeeds, `false` with the
state untouched when `parse` raises `SyntaxError`. -/
theorem c8_load_code_boundary (ir : Option SceneGraph)
    (store : List (Str × Handle)) (s : Str) :
    (∃ g, Parser.parse s = .ok g ∧
      NexRuntime.load_code ir store s = .ok
        { ret := true, game_ir := some g,
          store := AssetManager.load_assets store g.assets }) ∨
    (Parser.parse s = .error PyErr.SyntaxError ∧
      NexRuntime.load_code ir store s = .ok
        { ret := false, game_ir := ir, store := store }) := by
  rcases parse_cases s with ⟨-, g, hg⟩ | ⟨-, he⟩
  · exact Or.inl ⟨g, hg, by unfold NexRuntime.load_code; rw [hg]⟩
  · exact Or.inr ⟨he, by unfold NexRuntime.load_code; rw [he]⟩

/-- Claim C9.  One `Physics.update` changes only the `y` component of each
object's position and one `AI.update` changes only the `x` component of
case-insensitively-`enemy`-named objects; names, rotations, scales and
the other position components are untouched, and both updates preserve
the length of the object list. -/
theorem c9_frame_effects (objs : List SceneObject) (dt : ℚ) (i : ℕ)
    (o : SceneObject) (h : objs[i]? = some o) :
    (Physics.update objs dt).length = objs.length ∧
    (AI.update objs dt).length = objs.length ∧
    (∃ o', (Physics.update objs dt)[i]? = some o' ∧ o'.name = o.name ∧
      o'.rotation = o.rotation ∧ o'.scale = o.scale ∧
      o'.position.x = o.position.x ∧ o'.position.z = o.position.z) ∧
    (∃ o2, (AI.update objs dt)[i]? = some o2 ∧ o2.name = o.name ∧
      o2.rotation = o.rotation ∧ o2.scale = o.scale ∧
      o2.position.y = o.position.y ∧ o2.position.z = o.position.z ∧
      (pyLower o.name ≠ enemyTok → o2 = o)) := by
  refine ⟨by simp [Physics.update], by simp [AI.update], ?_, ?_⟩
  · refine ⟨{ o with position :=
        { o.position with y := max (o.position.y - 9.8 * dt) 0 } },
      ?_, rfl, rfl, rfl, rfl, rfl⟩
    unfold Physics.update
    rw [List.getElem?_map, h]
    rfl
  · by_cases he : pyLower o.name = enemyTok
    · refine ⟨{ o with position := { o.position with x := o.position.x - 1 * dt } },
        ?_, rfl, rfl, rfl, rfl, rfl, fun hne => absurd he hne⟩
      unfold AI.update
      rw [List.getElem?_map, h]
      simp [he]
    · refine ⟨o, ?_, rfl, rfl, rfl, rfl, rfl, fun _ => rfl⟩
      unfold AI.update
      rw [List.getElem?_map, h]
      simp [he]

/-- Claim C9, witness: a one-element object list. -/
theorem c9_witness : (Physics.update [eObj] 1).length = [eObj].length :=
  (c9_frame_effects [eObj] 1 0 eObj rfl).1

/-- Claim C10.  When `parse` raises `SyntaxError`, `load_code` returns
`False` and neither `self.game_ir` nor the `AssetManager` registry is
modified: the failed load is atomic. -/
theorem c10_load_atomic (ir : Option SceneGraph) (store : List (Str × Handle))
    (s : Str) (h : Parser.parse s = .error PyErr.SyntaxError) :
    NexRuntime.load_code ir store s = .ok
      { ret := false, game_ir := ir, store := store } := by
  unfold NexRuntime.load_code
  rw [h]

/-- Claim C10, witness: loading `hello` (no `game` keyword) with an empty
runtime state leaves the state empty and returns `False`. -/
theorem c10_witness :
    NexRuntime.load_code none [] ("hello".toList) = .ok
      { ret := false, game_ir := none, store := [] } :=
  c10_load_atomic none [] ("hello".toList) rfl
